import Mathlib

/-!
Shallow embedding of `src/lib/pool.js` (a JDBC connection pool).

Modelling conventions:
* `uuid.v4()` produces globally unique identifiers; we model the generator as a
  counter `nextUuid` carried in the pool state, so each created record gets a
  fresh `Nat` uuid.
* JS timestamps (`new Date().getTime()`) are `Int`s passed in as a `now`
  parameter to the operations that read the clock.
* The external driver manager (`dm.getConnectionSync`) can throw; we model its
  outcome by a function `fok : Nat → Bool` telling whether the creation that
  would consume uuid `u` succeeds.  `uuid.v4()` is only called after a
  successful `getConnectionSync`, so a failed creation consumes no uuid.
* `shuffle` (Fisher–Yates with `Math.random`) is modelled as an explicit
  function parameter `σ : List ConnObj → List ConnObj`; theorems that depend
  on it assume `∀ l, (σ l).Perm l`.
* Node callbacks: an operation's observable result is either `thrown e`
  (a synchronous exception propagated to the caller, the callback is never
  invoked), `cbErr e` (`callback(err)`), or `cbOk …` (`callback(null, …)`).
* `conn.conn` is `new Connection(raw)` for every record the pool itself
  creates, hence never null; the field `connNull` records the JS test
  `conn.conn !== null` for the defensive guards in `purge` and the idle
  reaper (it is `false` for every record the pool creates).
-/

/-- Errors surfaced by the pool.  `exhausted` is
`Error("No more pool connections available")`, `invalidConnection` is
`Error("INVALID CONNECTION")`, `connectionError` is the error thrown by the
driver manager during connection creation, `typeError` is the JS `TypeError`
raised by reading `.uuid` off `null` (note `typeof null === 'object'`). -/
inductive PoolError where
  | connectionError
  | exhausted
  | invalidConnection
  | typeError
deriving DecidableEq, Repr

/-- A pooled connection record (`connobj` in `pool.js`): a uuid, the wrapped
live connection (represented only by the `connNull` guard bit), the keepalive
timer flag (`setInterval` handle when keepalive is enabled, `false`
otherwise), and the `lastIdle` timestamp, present iff `maxIdle` was truthy at
creation time. -/
structure ConnObj where
  uuid : Nat
  connNull : Bool := false
  keepalive : Bool := false
  lastIdle : Option Int := none
deriving DecidableEq, Repr

/-- Pool configuration after the `Pool(config)` constructor has normalised it:
`_minpoolsize`, `_maxpoolsize`, keepalive enabled flag, and `_maxidle`
(`null` — i.e. `none` — whenever keepalive is enabled or `config.maxidle` is
falsy, per `this._maxidle = (!this._keepalive.enabled && config.maxidle) || null`). -/
structure PoolConfig where
  minpoolsize : Nat
  maxpoolsize : Nat
  kaEnabled : Bool := false
  maxidle : Option Int := none
deriving DecidableEq, Repr

/-- The mutable pool state: `_pool` (the available collection, front = next to
serve), `_reserved` (front = most recently reserved), plus the uuid-freshness
counter modelling `uuid.v4()`. -/
structure PoolState where
  pool : List ConnObj
  reserved : List ConnObj
  nextUuid : Nat
deriving DecidableEq, Repr

/-- `addConnectionSync(url, props, ka, maxIdle)` after a successful
`dm.getConnectionSync`: builds the record with a fresh uuid, the keepalive
flag, and `lastIdle = now` iff `maxIdle` is configured. -/
def addConnectionSync (cfg : PoolConfig) (now : Int) (u : Nat) : ConnObj :=
  { uuid := u
    connNull := false
    keepalive := cfg.kaEnabled
    lastIdle := if cfg.maxidle.isSome then some now else none }

/-- `Pool.prototype._addConnectionsOnInitialize`: creates `_minpoolsize`
records (via the async `addConnection`, which builds the same record shape)
and pushes them into `_pool` in creation order. -/
def initState (cfg : PoolConfig) (now : Int) : PoolState :=
  { pool := (List.range cfg.minpoolsize).map (addConnectionSync cfg now)
    reserved := []
    nextUuid := cfg.minpoolsize }

/-- The JS comparison `conn.lastIdle < maxLastIdle`: when `lastIdle` is
`undefined` (record created while `maxIdle` was not configured) the
comparison is `undefined < number`, which is `false`. -/
def lastIdleLt (lastIdle : Option Int) (cutoff : Int) : Bool :=
  match lastIdle with
  | none => false
  | some t => t < cutoff

/-- The eviction test of `closeIdleConnectionsInArray` for one record:
`typeof conn === 'object' && conn.conn !== null` and
`conn.lastIdle < time - maxIdle`.  (Every element of the modelled arrays is
an object, so the `typeof` test is always true.) -/
def evictP (maxIdle now : Int) (c : ConnObj) : Bool :=
  !c.connNull && lastIdleLt c.lastIdle (now - maxIdle)

/-- `closeIdleConnectionsInArray(array, maxIdle)`: scans the array backwards
and splices out each record whose `lastIdle` is strictly before
`now - maxIdle`, closing its connection.  Since each element is examined
exactly once and removal does not disturb the not-yet-visited prefix, the
loop keeps exactly the records failing the eviction test in their original
order; we return `(kept, closedAndRemoved)`. -/
def closeIdleConnectionsInArray (maxIdle now : Int) :
    List ConnObj → List ConnObj × List ConnObj
  | [] => ([], [])
  | c :: rest =>
    let r := closeIdleConnectionsInArray maxIdle now rest
    if evictP maxIdle now c then (r.1, c :: r.2) else (c :: r.1, r.2)

/-- `Pool.prototype._closeIdleConnections`: a no-op when `_maxidle` is not
configured; otherwise runs the idle reaper over `_pool` only (the call on
`_reserved` is commented out in the source). -/
def closeIdleStep (cfg : PoolConfig) (now : Int) (st : PoolState) : PoolState :=
  match cfg.maxidle with
  | none => st
  | some mi => { st with pool := (closeIdleConnectionsInArray mi now st.pool).1 }

/-- The top-up loop of `reserve`:
`for (let i = 0; i < times; i++) self._pool.unshift(addConnectionSync(...))`.
A failing `dm.getConnectionSync` throws out of the loop (and out of
`reserve`); the records unshifted by earlier iterations stay in `_pool`, which
is why the state is returned alongside the error. -/
def topUp (cfg : PoolConfig) (fok : Nat → Bool) (now : Int) :
    Nat → PoolState → Option PoolError × PoolState
  | 0, st => (none, st)
  | t + 1, st =>
    if fok st.nextUuid then
      topUp cfg fok now t
        { st with
            pool := addConnectionSync cfg now st.nextUuid :: st.pool
            nextUuid := st.nextUuid + 1 }
    else (some PoolError.connectionError, st)

/-- The records prepended by a run of `t` successful top-up iterations
starting at uuid `u0` (most recently created first). -/
def newConns (cfg : PoolConfig) (now : Int) (u0 t : Nat) : List ConnObj :=
  ((List.range t).map (fun i => addConnectionSync cfg now (u0 + i))).reverse

/-- Observable result of one `reserve(callback)` call. `thrown e` means a
synchronous exception escaped `reserve` and the callback was never invoked. -/
inductive ReserveOutcome where
  | thrown (e : PoolError)
  | cbErr (e : PoolError)
  | cbOk (c : ConnObj)
deriving DecidableEq, Repr

/-- `shuffle(self._pool)` applied to the state: the pool is reordered by the
(Fisher–Yates, `Math.random`-driven) shuffle `σ`; nothing else changes. -/
def shuffledState (σ : List ConnObj → List ConnObj) (st : PoolState) : PoolState :=
  { st with pool := σ st.pool }

/-- `var times = this._minpoolsize - conns.length` where
`conns = self._pool.concat(self._reserved)`; the loop guard `times > 0`
together with `i < times` makes the truncated `Nat` subtraction exact. -/
def reserveTimes (cfg : PoolConfig) (st : PoolState) : Nat :=
  cfg.minpoolsize - (st.pool.length + st.reserved.length)

/-- The tail of `reserve` after eviction, shuffle and top-up: shift the front
of `_pool` into `_reserved`; else, with room under `_maxpoolsize`, create one
connection directly into `_reserved` (a creation failure is caught and passed
to the callback, `conn` stays null and `_reserved` untouched); else the
`conn === null` fallthrough calls back with the exhaustion error. -/
def reserveServe (cfg : PoolConfig) (fok : Nat → Bool) (now : Int)
    (st3 : PoolState) : ReserveOutcome × PoolState :=
  match st3.pool with
  | c :: rest =>
    (ReserveOutcome.cbOk c, { st3 with pool := rest, reserved := c :: st3.reserved })
  | [] =>
    if st3.reserved.length < cfg.maxpoolsize then
      if fok st3.nextUuid then
        (ReserveOutcome.cbOk (addConnectionSync cfg now st3.nextUuid),
         { st3 with
             reserved := addConnectionSync cfg now st3.nextUuid :: st3.reserved
             nextUuid := st3.nextUuid + 1 })
      else (ReserveOutcome.cbErr PoolError.connectionError, st3)
    else (ReserveOutcome.cbErr PoolError.exhausted, st3)

/-- Dispatch on the top-up loop's outcome: an exception thrown there escapes
`reserve` (the callback is never run); otherwise `reserve` continues with the
topped-up state. -/
def reserveDispatch (cfg : PoolConfig) (fok : Nat → Bool) (now : Int) :
    Option PoolError × PoolState → ReserveOutcome × PoolState
  | (some e, st3) => (ReserveOutcome.thrown e, st3)
  | (none, st3) => reserveServe cfg fok now st3

/-- `Pool.prototype.reserve`: run idle eviction, shuffle `_pool`, top the pool
up to `_minpoolsize` (counting `_pool` and `_reserved` together), then serve
one connection (or fail), per `reserveServe`. -/
def reserve (cfg : PoolConfig) (fok : Nat → Bool)
    (σ : List ConnObj → List ConnObj) (now : Int) (st : PoolState) :
    ReserveOutcome × PoolState :=
  reserveDispatch cfg fok now
    (topUp cfg fok now
      (reserveTimes cfg (shuffledState σ (closeIdleStep cfg now st)))
      (shuffledState σ (closeIdleStep cfg now st)))

/-- The argument passed to `Pool.prototype.release`, classified by how the JS
code can see it: `nonObject` covers every value with `typeof x !== 'object'`
(numbers, strings, `undefined`, booleans, functions); `nullArg` is `null`
(for which `typeof null === 'object'` but reading `.uuid` throws a
`TypeError`); `obj c` is any actual object, whose `uuid` property is `c.uuid`. -/
inductive ReleaseArg where
  | nonObject
  | nullArg
  | obj (c : ConnObj)
deriving DecidableEq, Repr

/-- Observable result of one `release(conn, callback)` call. -/
inductive ReleaseOutcome where
  | thrown (e : PoolError)
  | cbErr (e : PoolError)
  | cbOk
deriving DecidableEq, Repr

/-- `Pool.prototype.release`: if the argument is an object, remove every
record of `_reserved` whose uuid equals the argument's uuid (`_.reject`),
unshift the argument itself onto `_pool`, and call back with success.  `now`
is the wall-clock time at which the call runs; the only clock read in
`release` (`conn.lastIdle = new Date().getTime()`) is commented out in the
source, so the result does not depend on `now`.  A non-object argument fails
with `Error("INVALID CONNECTION")`; `null` passes the `typeof` test but
throws a `TypeError` on the `conn.uuid` read. -/
def release (arg : ReleaseArg) (now : Int) (st : PoolState) :
    ReleaseOutcome × PoolState :=
  match arg with
  | ReleaseArg.nonObject => (ReleaseOutcome.cbErr PoolError.invalidConnection, st)
  | ReleaseArg.nullArg => (ReleaseOutcome.thrown PoolError.typeError, st)
  | ReleaseArg.obj c =>
    (ReleaseOutcome.cbOk,
     { st with
         reserved := st.reserved.filter (fun r => r.uuid ≠ c.uuid)
         pool := c :: st.pool })

/-- `Pool.prototype.purge`: concatenates `_pool` and `_reserved`, calls
`conn.conn.close` on every entry passing the object/non-null guard — the
close callback ignores its error ("we don't want to prevent other connections
from being closed") — and finally resets both collections to `[]`.
`closeFails u` tells whether closing the connection with uuid `u` fails; the
error is discarded, so it influences nothing.  Returns the new state together
with the list of uuids that received a close attempt, in order. -/
def purge (closeFails : Nat → Bool) (st : PoolState) : PoolState × List Nat :=
  let conns := st.pool ++ st.reserved
  let attempts := conns.foldr
    (fun c acc =>
      if !c.connNull then
        let _closeResult := closeFails c.uuid
        c.uuid :: acc
      else acc) []
  ({ st with pool := [], reserved := [] }, attempts)

/-- One client-visible pool operation: a `reserve` call (with its factory
outcomes, shuffle and clock) or a `release` call (with its argument). -/
inductive Op where
  | opReserve (fok : Nat → Bool) (σ : List ConnObj → List ConnObj) (now : Int)
  | opRelease (arg : ReleaseArg) (now : Int)

/-- The state transition of one operation (the observable outcome dropped). -/
def stepOp (cfg : PoolConfig) (op : Op) (st : PoolState) : PoolState :=
  match op with
  | Op.opReserve fok σ now => (reserve cfg fok σ now st).2
  | Op.opRelease arg now => (release arg now st).2

/-- Run a sequence of operations front to back. -/
def runOps (cfg : PoolConfig) : List Op → PoolState → PoolState
  | [], st => st
  | op :: ops, st => runOps cfg ops (stepOp cfg op st)

/-- `σ` behaves like the source's Fisher–Yates `shuffle`: it permutes its
input. -/
def IsShuffle (σ : List ConnObj → List ConnObj) : Prop :=
  ∀ l, (σ l).Perm l

/-- An operation is protocol-respecting at a state: reserve uses a genuine
shuffle, and release is called on a record currently reserved. -/
def GoodOp (st : PoolState) : Op → Prop
  | Op.opReserve _ σ _ => IsShuffle σ
  | Op.opRelease arg _ =>
    match arg with
    | ReleaseArg.obj c => c ∈ st.reserved
    | _ => True

/-- Every operation of the sequence is protocol-respecting at the state where
it runs. -/
def GoodRun (cfg : PoolConfig) : List Op → PoolState → Prop
  | [], _ => True
  | op :: ops, st => GoodOp st op ∧ GoodRun cfg ops (stepOp cfg op st)

/-- The connection identities of a collection, in order. -/
def uuids (l : List ConnObj) : List Nat := l.map ConnObj.uuid

/-- The identity invariant: no duplicate identity inside `_pool`, none inside
`_reserved`, and no identity present in both. -/
def Wf (st : PoolState) : Prop :=
  (uuids st.pool).Nodup ∧ (uuids st.reserved).Nodup ∧
    ∀ u, u ∈ uuids st.pool → u ∉ uuids st.reserved

/-- Freshness of the uuid counter: every identity in the pool is below
`nextUuid` (true of `uuid.v4`'s collision-freeness, rendered on the counter
model). -/
def Fresh (st : PoolState) : Prop :=
  ∀ u, u ∈ uuids st.pool ++ uuids st.reserved → u < st.nextUuid

/-- A 1/1 configuration: `minpoolsize = 1`, `maxpoolsize = 1`, no keepalive,
no idle eviction. -/
def cfgA : PoolConfig := { minpoolsize := 1, maxpoolsize := 1 }

/-- The `minSize = 2, maxSize = 3` configuration of the capacity scenario. -/
def cfgB : PoolConfig := { minpoolsize := 2, maxpoolsize := 3 }

/-- A 1/1 configuration with `maxidle = 1000` ms. -/
def cfgIdle : PoolConfig :=
  { minpoolsize := 1, maxpoolsize := 1, maxidle := some 1000 }

/-- A driver manager that always creates connections successfully. -/
def fokT : Nat → Bool := fun _ => true

/-- The identity reordering: a legitimate (degenerate) shuffle outcome. -/
def idShuffle : List ConnObj → List ConnObj := fun l => l

/-- The single record created by initializing `cfgA` at time 0. -/
def connA : ConnObj := addConnectionSync cfgA 0 0

/-- The single record created by initializing `cfgIdle` at time 0; it carries
`lastIdle = some 0`. -/
def connIdle : ConnObj := addConnectionSync cfgIdle 0 0

/-- Reserve once, then release the same record twice (a double release). -/
def opsDouble : List Op :=
  [Op.opReserve fokT idShuffle 0,
   Op.opRelease (ReleaseArg.obj connA) 1,
   Op.opRelease (ReleaseArg.obj connA) 2]

/-- Reserve once, then one legitimate release of the reserved record. -/
def opsCycle : List Op :=
  [Op.opReserve fokT idShuffle 0,
   Op.opRelease (ReleaseArg.obj connA) 1]


/-- min 2 / max 2, used to exercise the top-up loop. -/
def cfgTop : PoolConfig := { minpoolsize := 2, maxpoolsize := 2 }

/-- min 3 / max 3, used to exercise a failing top-up loop. -/
def cfgTri : PoolConfig := { minpoolsize := 3, maxpoolsize := 3 }

/-- min 1 / max 2, used to exercise failing on-demand growth. -/
def cfgGrow : PoolConfig := { minpoolsize := 1, maxpoolsize := 2 }

/-- An empty pool whose uuid counter is 5. -/
def stEmpty5 : PoolState := { pool := [], reserved := [], nextUuid := 5 }

/-- An empty pool whose uuid counter is 0. -/
def stEmpty0 : PoolState := { pool := [], reserved := [], nextUuid := 0 }

/-- Empty `_pool`, one reserved record. -/
def stOneReserved : PoolState := { pool := [], reserved := [connA], nextUuid := 1 }

/-- A driver manager whose first creation (uuid 0) succeeds and whose later
creations fail. -/
def fok01 : Nat → Bool := fun u => u == 0

/-- A driver manager that always fails. -/
def fokF : Nat → Bool := fun _ => false


section Lemmas

theorem closeIdle_fst (mi now : Int) (l : List ConnObj) :
    (closeIdleConnectionsInArray mi now l).1 =
      l.filter (fun c => !evictP mi now c) := by
  induction l with
  | nil => rfl
  | cons c rest ih =>
    simp only [closeIdleConnectionsInArray, List.filter_cons]
    cases h : evictP mi now c <;> simp [h, ih]

theorem closeIdle_snd (mi now : Int) (l : List ConnObj) :
    (closeIdleConnectionsInArray mi now l).2 = l.filter (evictP mi now) := by
  induction l with
  | nil => rfl
  | cons c rest ih =>
    simp only [closeIdleConnectionsInArray, List.filter_cons]
    cases h : evictP mi now c <;> simp [h, ih]

theorem closeIdleStep_reserved (cfg : PoolConfig) (now : Int) (st : PoolState) :
    (closeIdleStep cfg now st).reserved = st.reserved := by
  unfold closeIdleStep; cases cfg.maxidle <;> rfl

theorem closeIdleStep_nextUuid (cfg : PoolConfig) (now : Int) (st : PoolState) :
    (closeIdleStep cfg now st).nextUuid = st.nextUuid := by
  unfold closeIdleStep; cases cfg.maxidle <;> rfl

theorem closeIdleStep_pool_sublist (cfg : PoolConfig) (now : Int) (st : PoolState) :
    (closeIdleStep cfg now st).pool.Sublist st.pool := by
  unfold closeIdleStep
  cases cfg.maxidle with
  | none => exact List.Sublist.refl _
  | some mi => simp [closeIdle_fst, List.filter_sublist (l := st.pool)]

theorem uuids_cons (c : ConnObj) (l : List ConnObj) :
    uuids (c :: l) = c.uuid :: uuids l := rfl

theorem uuids_append (l₁ l₂ : List ConnObj) :
    uuids (l₁ ++ l₂) = uuids l₁ ++ uuids l₂ := List.map_append _ _ _

theorem uuids_sublist {l₁ l₂ : List ConnObj} (h : l₁.Sublist l₂) :
    (uuids l₁).Sublist (uuids l₂) := List.Sublist.map _ h

theorem uuids_perm {l₁ l₂ : List ConnObj} (h : l₁.Perm l₂) :
    (uuids l₁).Perm (uuids l₂) := List.Perm.map _ h


theorem addConnectionSync_uuid (cfg : PoolConfig) (now : Int) (u : Nat) :
    (addConnectionSync cfg now u).uuid = u := rfl

theorem newConns_zero (cfg : PoolConfig) (now : Int) (u0 : Nat) :
    newConns cfg now u0 0 = [] := rfl

theorem newConns_succ (cfg : PoolConfig) (now : Int) (u0 t : Nat) :
    newConns cfg now u0 (t + 1) =
      newConns cfg now (u0 + 1) t ++ [addConnectionSync cfg now u0] := by
  unfold newConns
  have hmap :
      List.map ((fun i => addConnectionSync cfg now (u0 + i)) ∘ Nat.succ)
          (List.range t) =
        List.map (fun i => addConnectionSync cfg now (u0 + 1 + i))
          (List.range t) := by
    refine List.map_congr_left ?_
    intro i _
    simp only [Function.comp_apply]
    congr 1
    omega
  rw [List.range_succ_eq_map]
  simp only [List.map_cons, Nat.add_zero, List.reverse_cons, List.map_map, hmap]

theorem topUp_ok (cfg : PoolConfig) (fok : Nat → Bool) (now : Int)
    (t : Nat) (st : PoolState)
    (h : ∀ i, i < t → fok (st.nextUuid + i) = true) :
    topUp cfg fok now t st =
      (none,
       { st with
           pool := newConns cfg now st.nextUuid t ++ st.pool
           nextUuid := st.nextUuid + t }) := by
  induction t generalizing st with
  | zero => simp [topUp, newConns]
  | succ t ih =>
    have h0 : fok st.nextUuid = true := by
      have := h 0 (Nat.succ_pos t); simpa using this
    have hrest : ∀ i, i < t →
        fok (({ st with
            pool := addConnectionSync cfg now st.nextUuid :: st.pool
            nextUuid := st.nextUuid + 1 } : PoolState).nextUuid + i) = true := by
      intro i hi
      have := h (i + 1) (by omega)
      have harith : st.nextUuid + (i + 1) = st.nextUuid + 1 + i := by omega
      simpa [harith] using this
    rw [topUp, if_pos h0, ih _ hrest]
    simp [newConns_succ, List.append_assoc]
    omega

theorem topUp_fail (cfg : PoolConfig) (fok : Nat → Bool) (now : Int)
    (t k : Nat) (st : PoolState) (hk : k < t)
    (hok : ∀ i, i < k → fok (st.nextUuid + i) = true)
    (hfail : fok (st.nextUuid + k) = false) :
    topUp cfg fok now t st =
      (some PoolError.connectionError,
       { st with
           pool := newConns cfg now st.nextUuid k ++ st.pool
           nextUuid := st.nextUuid + k }) := by
  induction k generalizing t st with
  | zero =>
    obtain ⟨t', rfl⟩ : ∃ t', t = t' + 1 := ⟨t - 1, by omega⟩
    have h0 : fok st.nextUuid = false := by simpa using hfail
    simp [topUp, h0, newConns]
  | succ k ih =>
    obtain ⟨t', rfl⟩ : ∃ t', t = t' + 1 := ⟨t - 1, by omega⟩
    have h0 : fok st.nextUuid = true := by
      have := hok 0 (Nat.succ_pos k); simpa using this
    have hok' : ∀ i, i < k →
        fok (({ st with
            pool := addConnectionSync cfg now st.nextUuid :: st.pool
            nextUuid := st.nextUuid + 1 } : PoolState).nextUuid + i) = true := by
      intro i hi
      have := hok (i + 1) (by omega)
      have harith : st.nextUuid + (i + 1) = st.nextUuid + 1 + i := by omega
      simpa [harith] using this
    have hfail' : fok (({ st with
        pool := addConnectionSync cfg now st.nextUuid :: st.pool
        nextUuid := st.nextUuid + 1 } : PoolState).nextUuid + k) = false := by
      have harith : st.nextUuid + (k + 1) = st.nextUuid + 1 + k := by omega
      simpa [harith] using hfail
    rw [topUp, if_pos h0, ih _ _ (by omega) hok' hfail']
    simp [newConns_succ, List.append_assoc]
    omega

theorem wf_fresh_shuffle (σ : List ConnObj → List ConnObj) (hσ : IsShuffle σ)
    (st : PoolState) (hw : Wf st) (hf : Fresh st) :
    Wf { st with pool := σ st.pool } ∧ Fresh { st with pool := σ st.pool } := by
  obtain ⟨h1, h2, h3⟩ := hw
  have hp : (uuids (σ st.pool)).Perm (uuids st.pool) := uuids_perm (hσ st.pool)
  refine ⟨⟨hp.nodup_iff.mpr h1, h2, ?_⟩, ?_⟩
  · intro u hu
    exact h3 u (hp.mem_iff.mp hu)
  · intro u hu
    rcases List.mem_append.mp hu with h | h
    · exact hf u (List.mem_append.mpr (Or.inl (hp.mem_iff.mp h)))
    · exact hf u (List.mem_append.mpr (Or.inr h))

theorem wf_fresh_closeIdleStep (cfg : PoolConfig) (now : Int) (st : PoolState)
    (hw : Wf st) (hf : Fresh st) :
    Wf (closeIdleStep cfg now st) ∧ Fresh (closeIdleStep cfg now st) := by
  obtain ⟨h1, h2, h3⟩ := hw
  have hsub : (uuids (closeIdleStep cfg now st).pool).Sublist (uuids st.pool) :=
    uuids_sublist (closeIdleStep_pool_sublist cfg now st)
  constructor
  · refine ⟨h1.sublist hsub, ?_, ?_⟩
    · rw [closeIdleStep_reserved]; exact h2
    · intro u hu
      rw [closeIdleStep_reserved]
      exact h3 u (hsub.mem hu)
  · intro u hu
    rw [closeIdleStep_nextUuid]
    rcases List.mem_append.mp hu with h | h
    · exact hf u (List.mem_append.mpr (Or.inl (hsub.mem h)))
    · rw [closeIdleStep_reserved] at h
      exact hf u (List.mem_append.mpr (Or.inr h))

theorem wf_fresh_addFreshPool (cfg : PoolConfig) (now : Int) (st : PoolState)
    (hw : Wf st) (hf : Fresh st) :
    Wf { st with
           pool := addConnectionSync cfg now st.nextUuid :: st.pool
           nextUuid := st.nextUuid + 1 } ∧
      Fresh { st with
                pool := addConnectionSync cfg now st.nextUuid :: st.pool
                nextUuid := st.nextUuid + 1 } := by
  obtain ⟨h1, h2, h3⟩ := hw
  constructor
  · refine ⟨?_, h2, ?_⟩
    · rw [uuids_cons, addConnectionSync_uuid, List.nodup_cons]
      refine ⟨fun hin => ?_, h1⟩
      have := hf st.nextUuid (List.mem_append.mpr (Or.inl hin))
      omega
    · intro u hu
      rw [uuids_cons, addConnectionSync_uuid] at hu
      rcases List.mem_cons.mp hu with heq | h
      · subst heq
        intro hin
        have := hf st.nextUuid (List.mem_append.mpr (Or.inr hin))
        omega
      · exact h3 u h
  · intro u hu
    show u < st.nextUuid + 1
    simp only [uuids_cons, addConnectionSync_uuid] at hu
    rcases List.mem_append.mp hu with h | h
    · rcases List.mem_cons.mp h with heq | h
      · omega
      · have := hf u (List.mem_append.mpr (Or.inl h)); omega
    · have := hf u (List.mem_append.mpr (Or.inr h)); omega

theorem wf_fresh_topUp (cfg : PoolConfig) (fok : Nat → Bool) (now : Int)
    (t : Nat) (st : PoolState) (hw : Wf st) (hf : Fresh st) :
    Wf (topUp cfg fok now t st).2 ∧ Fresh (topUp cfg fok now t st).2 ∧
      (topUp cfg fok now t st).2.reserved = st.reserved := by
  induction t generalizing st with
  | zero => exact ⟨hw, hf, rfl⟩
  | succ t ih =>
    rw [topUp]
    by_cases h0 : fok st.nextUuid
    · rw [if_pos h0]
      obtain ⟨hw', hf'⟩ := wf_fresh_addFreshPool cfg now st hw hf
      exact ih _ hw' hf'
    · rw [if_neg h0]
      exact ⟨hw, hf, rfl⟩

theorem wf_fresh_moveHead (st : PoolState) (c : ConnObj) (rest : List ConnObj)
    (hp : st.pool = c :: rest) (hw : Wf st) (hf : Fresh st) :
    Wf { st with pool := rest, reserved := c :: st.reserved } ∧
      Fresh { st with pool := rest, reserved := c :: st.reserved } := by
  obtain ⟨h1, h2, h3⟩ := hw
  rw [hp, uuids_cons, List.nodup_cons] at h1
  obtain ⟨hcn, hrn⟩ := h1
  have hcu : c.uuid ∉ uuids st.reserved := by
    refine h3 c.uuid ?_
    rw [hp, uuids_cons]
    exact List.mem_cons_self _ _
  constructor
  · refine ⟨hrn, ?_, ?_⟩
    · rw [uuids_cons, List.nodup_cons]
      exact ⟨hcu, h2⟩
    · intro u hu
      rw [uuids_cons, List.mem_cons]
      push_neg
      constructor
      · intro heq
        exact hcn (heq ▸ hu)
      · refine h3 u ?_
        rw [hp, uuids_cons]
        exact List.mem_cons_of_mem _ hu
  · intro u hu
    show u < st.nextUuid
    rcases List.mem_append.mp hu with h | h
    · refine hf u (List.mem_append.mpr (Or.inl ?_))
      rw [hp, uuids_cons]
      exact List.mem_cons_of_mem _ h
    · rw [uuids_cons, List.mem_cons] at h
      rcases h with heq | h
      · subst heq
        refine hf c.uuid (List.mem_append.mpr (Or.inl ?_))
        rw [hp, uuids_cons]
        exact List.mem_cons_self _ _
      · exact hf u (List.mem_append.mpr (Or.inr h))

theorem wf_fresh_addFreshReserved (cfg : PoolConfig) (now : Int) (st : PoolState)
    (hw : Wf st) (hf : Fresh st) :
    Wf { st with
           reserved := addConnectionSync cfg now st.nextUuid :: st.reserved
           nextUuid := st.nextUuid + 1 } ∧
      Fresh { st with
                reserved := addConnectionSync cfg now st.nextUuid :: st.reserved
                nextUuid := st.nextUuid + 1 } := by
  obtain ⟨h1, h2, h3⟩ := hw
  constructor
  · refine ⟨h1, ?_, ?_⟩
    · rw [uuids_cons, addConnectionSync_uuid, List.nodup_cons]
      refine ⟨fun hin => ?_, h2⟩
      have := hf st.nextUuid (List.mem_append.mpr (Or.inr hin))
      omega
    · intro u hu
      rw [uuids_cons, addConnectionSync_uuid, List.mem_cons]
      push_neg
      constructor
      · intro heq
        have := hf u (List.mem_append.mpr (Or.inl hu))
        omega
      · exact h3 u hu
  · intro u hu
    show u < st.nextUuid + 1
    simp only [uuids_cons, addConnectionSync_uuid] at hu
    rcases List.mem_append.mp hu with h | h
    · have := hf u (List.mem_append.mpr (Or.inl h)); omega
    · rcases List.mem_cons.mp h with heq | h
      · omega
      · have := hf u (List.mem_append.mpr (Or.inr h)); omega

theorem wf_fresh_reserveServe (cfg : PoolConfig) (fok : Nat → Bool) (now : Int)
    (st3 : PoolState) (hw : Wf st3) (hf : Fresh st3) :
    Wf (reserveServe cfg fok now st3).2 ∧ Fresh (reserveServe cfg fok now st3).2 := by
  unfold reserveServe
  cases hp : st3.pool with
  | cons c rest => exact wf_fresh_moveHead st3 c rest hp hw hf
  | nil =>
    by_cases hroom : st3.reserved.length < cfg.maxpoolsize
    · rw [if_pos hroom]
      by_cases h0 : fok st3.nextUuid
      · rw [if_pos h0]
        have h := wf_fresh_addFreshReserved cfg now st3 hw hf
        rw [hp] at h
        exact h
      · rw [if_neg h0]
        exact ⟨hw, hf⟩
    · rw [if_neg hroom]
      exact ⟨hw, hf⟩

theorem wf_fresh_reserve (cfg : PoolConfig) (fok : Nat → Bool)
    (σ : List ConnObj → List ConnObj) (now : Int) (st : PoolState)
    (hσ : IsShuffle σ) (hw : Wf st) (hf : Fresh st) :
    Wf (reserve cfg fok σ now st).2 ∧ Fresh (reserve cfg fok σ now st).2 := by
  obtain ⟨hw1, hf1⟩ := wf_fresh_closeIdleStep cfg now st hw hf
  obtain ⟨hw2, hf2⟩ := wf_fresh_shuffle σ hσ _ hw1 hf1
  unfold reserve
  rcases htu : topUp cfg fok now
      (reserveTimes cfg (shuffledState σ (closeIdleStep cfg now st)))
      (shuffledState σ (closeIdleStep cfg now st)) with ⟨r, st3⟩
  have h3 := wf_fresh_topUp cfg fok now
    (reserveTimes cfg (shuffledState σ (closeIdleStep cfg now st)))
    (shuffledState σ (closeIdleStep cfg now st)) hw2 hf2
  rw [htu] at h3
  obtain ⟨hw3, hf3, -⟩ := h3
  cases r with
  | some e => exact ⟨hw3, hf3⟩
  | none => exact wf_fresh_reserveServe cfg fok now st3 hw3 hf3

theorem mem_uuids {u : Nat} {l : List ConnObj} :
    u ∈ uuids l ↔ ∃ c ∈ l, c.uuid = u := List.mem_map

theorem release_obj_eq (c : ConnObj) (now : Int) (st : PoolState) :
    release (ReleaseArg.obj c) now st =
      (ReleaseOutcome.cbOk,
       { st with
           reserved := st.reserved.filter (fun r => r.uuid ≠ c.uuid)
           pool := c :: st.pool }) := rfl

theorem uuids_filter_ne_sublist (c : ConnObj) (l : List ConnObj) :
    (uuids (l.filter (fun r => r.uuid ≠ c.uuid))).Sublist (uuids l) :=
  uuids_sublist (List.filter_sublist l)

theorem not_mem_uuids_filter_ne (c : ConnObj) (l : List ConnObj) :
    c.uuid ∉ uuids (l.filter (fun r => r.uuid ≠ c.uuid)) := by
  intro h
  obtain ⟨r, hr, hru⟩ := mem_uuids.mp h
  have := List.of_mem_filter hr
  simp only [decide_eq_true_eq] at this
  exact this hru

theorem wf_fresh_release_good (c : ConnObj) (now : Int) (st : PoolState)
    (hc : c ∈ st.reserved) (hw : Wf st) (hf : Fresh st) :
    Wf (release (ReleaseArg.obj c) now st).2 ∧
      Fresh (release (ReleaseArg.obj c) now st).2 := by
  obtain ⟨h1, h2, h3⟩ := hw
  have hcr : c.uuid ∈ uuids st.reserved := mem_uuids.mpr ⟨c, hc, rfl⟩
  have hcp : c.uuid ∉ uuids st.pool := fun hin => h3 c.uuid hin hcr
  rw [release_obj_eq]
  constructor
  · refine ⟨?_, ?_, ?_⟩
    · rw [uuids_cons, List.nodup_cons]
      exact ⟨hcp, h1⟩
    · exact h2.sublist (uuids_filter_ne_sublist c st.reserved)
    · intro u hu
      rw [uuids_cons, List.mem_cons] at hu
      rcases hu with heq | h
      · subst heq
        exact not_mem_uuids_filter_ne c st.reserved
      · intro hin
        exact h3 u h ((uuids_filter_ne_sublist c st.reserved).mem hin)
  · intro u hu
    show u < st.nextUuid
    rcases List.mem_append.mp hu with h | h
    · rw [uuids_cons, List.mem_cons] at h
      rcases h with heq | h
      · subst heq
        exact hf c.uuid (List.mem_append.mpr (Or.inr hcr))
      · exact hf u (List.mem_append.mpr (Or.inl h))
    · exact hf u
        (List.mem_append.mpr (Or.inr ((uuids_filter_ne_sublist c st.reserved).mem h)))

theorem wf_fresh_stepOp (cfg : PoolConfig) (op : Op) (st : PoolState)
    (hg : GoodOp st op) (hw : Wf st) (hf : Fresh st) :
    Wf (stepOp cfg op st) ∧ Fresh (stepOp cfg op st) := by
  cases op with
  | opReserve fok σ now => exact wf_fresh_reserve cfg fok σ now st hg hw hf
  | opRelease arg now =>
    cases arg with
    | nonObject => exact ⟨hw, hf⟩
    | nullArg => exact ⟨hw, hf⟩
    | obj c => exact wf_fresh_release_good c now st hg hw hf

theorem wf_fresh_runOps (cfg : PoolConfig) (ops : List Op) (st : PoolState)
    (hg : GoodRun cfg ops st) (hw : Wf st) (hf : Fresh st) :
    Wf (runOps cfg ops st) ∧ Fresh (runOps cfg ops st) := by
  induction ops generalizing st with
  | nil => exact ⟨hw, hf⟩
  | cons op ops ih =>
    obtain ⟨hgo, hgr⟩ := hg
    obtain ⟨hw', hf'⟩ := wf_fresh_stepOp cfg op st hgo hw hf
    exact ih _ hgr hw' hf'

theorem uuids_initState (cfg : PoolConfig) (now : Int) :
    uuids (initState cfg now).pool = List.range cfg.minpoolsize := by
  unfold initState uuids
  rw [List.map_map]
  have h : (ConnObj.uuid ∘ addConnectionSync cfg now) = id := by
    funext i; rfl
  rw [h, List.map_id]

theorem wf_fresh_initState (cfg : PoolConfig) (now : Int) :
    Wf (initState cfg now) ∧ Fresh (initState cfg now) := by
  constructor
  · refine ⟨?_, List.nodup_nil, ?_⟩
    · rw [uuids_initState]
      exact List.nodup_range cfg.minpoolsize
    · intro u _
      intro hin
      simp [initState, uuids] at hin
  · intro u hu
    show u < cfg.minpoolsize
    rcases List.mem_append.mp hu with h | h
    · rw [uuids_initState] at h
      exact List.mem_range.mp h
    · simp [initState, uuids] at h

theorem closeIdleStep_none (cfg : PoolConfig) (now : Int) (st : PoolState)
    (h : cfg.maxidle = none) : closeIdleStep cfg now st = st := by
  unfold closeIdleStep
  rw [h]

theorem closeIdleStep_pool_nil (cfg : PoolConfig) (now : Int) (st : PoolState)
    (h : st.pool = []) : closeIdleStep cfg now st = st := by
  unfold closeIdleStep
  cases cfg.maxidle with
  | none => rfl
  | some mi =>
    rw [h]
    cases st with
    | mk p r n =>
      simp only at h
      rw [h]
      rfl

theorem reserve_eq_serve_of_no_topup (cfg : PoolConfig) (fok : Nat → Bool)
    (σ : List ConnObj → List ConnObj) (now : Int) (st : PoolState)
    (hσ : IsShuffle σ)
    (hlen : cfg.minpoolsize ≤
      (closeIdleStep cfg now st).pool.length +
        (closeIdleStep cfg now st).reserved.length) :
    reserve cfg fok σ now st =
      reserveServe cfg fok now (shuffledState σ (closeIdleStep cfg now st)) := by
  unfold reserve
  have hlσ : (σ (closeIdleStep cfg now st).pool).length =
      (closeIdleStep cfg now st).pool.length :=
    (hσ (closeIdleStep cfg now st).pool).length_eq
  have ht : reserveTimes cfg (shuffledState σ (closeIdleStep cfg now st)) = 0 := by
    unfold reserveTimes shuffledState
    simp only []
    omega
  rw [ht]
  rfl

theorem reserveServe_cons (cfg : PoolConfig) (fok : Nat → Bool) (now : Int)
    (st3 : PoolState) (c : ConnObj) (rest : List ConnObj)
    (hp : st3.pool = c :: rest) :
    reserveServe cfg fok now st3 =
      (ReserveOutcome.cbOk c,
       { st3 with pool := rest, reserved := c :: st3.reserved }) := by
  unfold reserveServe
  rw [hp]

theorem reserveServe_grow (cfg : PoolConfig) (fok : Nat → Bool) (now : Int)
    (st3 : PoolState) (hp : st3.pool = [])
    (hroom : st3.reserved.length < cfg.maxpoolsize)
    (hok : fok st3.nextUuid = true) :
    reserveServe cfg fok now st3 =
      (ReserveOutcome.cbOk (addConnectionSync cfg now st3.nextUuid),
       { st3 with
           reserved := addConnectionSync cfg now st3.nextUuid :: st3.reserved
           nextUuid := st3.nextUuid + 1 }) := by
  unfold reserveServe
  rw [hp, if_pos hroom, hok]
  rfl

theorem reserveServe_grow_fail (cfg : PoolConfig) (fok : Nat → Bool) (now : Int)
    (st3 : PoolState) (hp : st3.pool = [])
    (hroom : st3.reserved.length < cfg.maxpoolsize)
    (hfail : fok st3.nextUuid = false) :
    reserveServe cfg fok now st3 =
      (ReserveOutcome.cbErr PoolError.connectionError, st3) := by
  unfold reserveServe
  rw [hp, if_pos hroom, hfail]
  rfl

theorem reserveServe_exhausted (cfg : PoolConfig) (fok : Nat → Bool) (now : Int)
    (st3 : PoolState) (hp : st3.pool = [])
    (hfull : ¬ st3.reserved.length < cfg.maxpoolsize) :
    reserveServe cfg fok now st3 =
      (ReserveOutcome.cbErr PoolError.exhausted, st3) := by
  unfold reserveServe
  rw [hp, if_neg hfull]

theorem attempts_foldr (cf : Nat → Bool) (l : List ConnObj) :
    l.foldr
      (fun c acc =>
        if !c.connNull then
          let _closeResult := cf c.uuid
          c.uuid :: acc
        else acc) [] =
      uuids (l.filter (fun c => !c.connNull)) := by
  induction l with
  | nil => rfl
  | cons c rest ih =>
    rw [List.foldr_cons, List.filter_cons, ih]
    cases h : c.connNull with
    | true => simp [h]
    | false => simp [h, uuids_cons]

/-- C3: `purge()` attempts to close every connection present in `_pool` or
`_reserved` (every record passing the defensive object/non-null-conn guard —
true of all records the pool creates), one close failure never prevents the
remaining close attempts (the result is independent of which closes fail,
since the close callback discards its error), and afterwards both collections
are empty regardless of how many closes failed. -/
theorem c3_purge_closes_all_and_empties (closeFails : Nat → Bool) (st : PoolState) :
    (purge closeFails st).1.pool = [] ∧
    (purge closeFails st).1.reserved = [] ∧
    (purge closeFails st).2 =
      uuids ((st.pool ++ st.reserved).filter (fun c => !c.connNull)) ∧
    (∀ c, c ∈ st.pool ++ st.reserved → c.connNull = false →
      c.uuid ∈ (purge closeFails st).2) ∧
    purge closeFails st = purge (fun _ => false) st := by
  have hatt : (purge closeFails st).2 =
      uuids ((st.pool ++ st.reserved).filter (fun c => !c.connNull)) :=
    attempts_foldr closeFails (st.pool ++ st.reserved)
  refine ⟨rfl, rfl, hatt, ?_, rfl⟩
  intro c hc hnull
  rw [hatt]
  exact mem_uuids.mpr ⟨c, List.mem_filter.mpr ⟨hc, by simp [hnull]⟩, rfl⟩

/-- C6: the idle-eviction step never touches `_reserved`; with `maxidle`
unset it is a no-op; with `maxidle = mi` it removes from `_pool` exactly the
records satisfying the eviction test (and those removed are the ones closed),
where for a genuine record (non-null conn, `lastIdle` present) the test is
exactly `lastIdle < now - mi`, strictly; in particular with `mi = 1000` a
record idle for 1500 ms is evicted and one idle for 500 ms is retained. -/
theorem c6_idle_eviction_semantics (cfg : PoolConfig) (now : Int) (st : PoolState) :
    (closeIdleStep cfg now st).reserved = st.reserved ∧
    (cfg.maxidle = none → closeIdleStep cfg now st = st) ∧
    (∀ mi, cfg.maxidle = some mi →
      (closeIdleStep cfg now st).pool =
        st.pool.filter (fun c => !evictP mi now c) ∧
      (closeIdleConnectionsInArray mi now st.pool).2 =
        st.pool.filter (evictP mi now)) ∧
    (∀ c : ConnObj, c.connNull = false → ∀ t mi, c.lastIdle = some t →
      (evictP mi now c = true ↔ t < now - mi)) ∧
    evictP 1000 now { uuid := 0, lastIdle := some (now - 1500) } = true ∧
    evictP 1000 now { uuid := 0, lastIdle := some (now - 500) } = false := by
  refine ⟨closeIdleStep_reserved cfg now st, closeIdleStep_none cfg now st, ?_, ?_, ?_, ?_⟩
  · intro mi hmi
    constructor
    · unfold closeIdleStep
      rw [hmi]
      exact closeIdle_fst mi now st.pool
    · exact closeIdle_snd mi now st.pool
  · intro c hnull t mi hlast
    simp [evictP, lastIdleLt, hnull, hlast]
  · simp [evictP, lastIdleLt]
  · simp [evictP, lastIdleLt]

/-- C7 counterexample: releasing an object that is not a pooled connection
(its `uuid`, 99, matches nothing in `_reserved`) does not fail with the
INVALID CONNECTION error — it succeeds and pushes the foreign object onto
`_pool`, changing the available collection. -/
theorem c7_counterexample_object_without_identity :
    (release (ReleaseArg.obj { uuid := 99 }) 0
        { pool := [], reserved := [connA], nextUuid := 1 }).1 =
      ReleaseOutcome.cbOk ∧
    (release (ReleaseArg.obj { uuid := 99 }) 0
        { pool := [], reserved := [connA], nextUuid := 1 }).2.pool =
      [{ uuid := 99 }] := by
  constructor <;> rfl

/-- C7 (amended): only a non-object argument (`typeof x !== 'object'`) makes
`release` fail with the INVALID CONNECTION error and leave both collections
unchanged; an object argument — even one without a valid pooled identity —
is accepted and unshifted onto `_pool`. -/
theorem c7_amended_nonobject_release (now : Int) (st : PoolState) :
    release ReleaseArg.nonObject now st =
      (ReleaseOutcome.cbErr PoolError.invalidConnection, st) := rfl

/-- C9: for every object argument, `release` unconditionally unshifts the
object onto the front of `_pool`: the callback reports success, the front of
the new `_pool` is the argument, when its identity matches nothing in
`_reserved` that collection is unchanged, and the occurrence count of the
record in `_pool` grows by one — so releasing a record already in `_pool`
(a double release) leaves two copies there. -/
theorem c9_release_unconditionally_unshifts (c : ConnObj) (now : Int)
    (st : PoolState) :
    (release (ReleaseArg.obj c) now st).1 = ReleaseOutcome.cbOk ∧
    (release (ReleaseArg.obj c) now st).2.pool = c :: st.pool ∧
    (c.uuid ∉ uuids st.reserved →
      (release (ReleaseArg.obj c) now st).2.reserved = st.reserved) ∧
    (release (ReleaseArg.obj c) now st).2.pool.count c = st.pool.count c + 1 := by
  rw [release_obj_eq]
  refine ⟨rfl, rfl, ?_, List.count_cons_self c st.pool⟩
  intro hnot
  refine List.filter_eq_self.mpr ?_
  intro r hr
  simp only [decide_eq_true_eq]
  intro heq
  exact hnot (mem_uuids.mpr ⟨r, hr, heq⟩)


theorem newConns_length (cfg : PoolConfig) (now : Int) (u0 t : Nat) :
    (newConns cfg now u0 t).length = t := by
  unfold newConns
  simp

theorem reserveDispatch_none (cfg : PoolConfig) (fok : Nat → Bool) (now : Int)
    (st3 : PoolState) :
    reserveDispatch cfg fok now (none, st3) = reserveServe cfg fok now st3 := rfl

theorem reserveDispatch_some (cfg : PoolConfig) (fok : Nat → Bool) (now : Int)
    (e : PoolError) (st3 : PoolState) :
    reserveDispatch cfg fok now (some e, st3) = (ReserveOutcome.thrown e, st3) := rfl

/-- C5: when `reserve` finds `_pool` empty (and no top-up fires because the
total population already meets `_minpoolsize`), `_reserved` still has room
under `_maxpoolsize`, and the factory throws while growing on demand, the
error is caught and passed to the callback as the creation error, and the
pool state is returned exactly as it was: no record added to either
collection and no identity consumed. -/
theorem c5_growth_failure_leaves_state_unchanged (cfg : PoolConfig)
    (fok : Nat → Bool) (σ : List ConnObj → List ConnObj) (now : Int)
    (st : PoolState) (hσ : IsShuffle σ)
    (hp : st.pool = [])
    (hmin : cfg.minpoolsize ≤ st.reserved.length)
    (hroom : st.reserved.length < cfg.maxpoolsize)
    (hfail : fok st.nextUuid = false) :
    reserve cfg fok σ now st =
      (ReserveOutcome.cbErr PoolError.connectionError, st) := by
  have hcl : closeIdleStep cfg now st = st := closeIdleStep_pool_nil cfg now st hp
  have hσnil : σ st.pool = [] := by
    rw [hp]
    exact List.perm_nil.mp (hσ [])
  have hsh : shuffledState σ (closeIdleStep cfg now st) = st := by
    rw [hcl]
    unfold shuffledState
    rw [hσnil, ← hp]
  have hlen : cfg.minpoolsize ≤
      (closeIdleStep cfg now st).pool.length +
        (closeIdleStep cfg now st).reserved.length := by
    rw [hcl, hp]
    simpa using hmin
  rw [reserve_eq_serve_of_no_topup cfg fok σ now st hσ hlen, hsh]
  exact reserveServe_grow_fail cfg fok now st hp hroom hfail

/-- C5 witness: a concrete pool with one reserved connection, min 1 / max 2,
and an always-failing factory. -/
theorem c5_growth_failure_witness :
    IsShuffle idShuffle ∧ stOneReserved.pool = [] ∧
    cfgGrow.minpoolsize ≤ stOneReserved.reserved.length ∧
    stOneReserved.reserved.length < cfgGrow.maxpoolsize ∧
    fokF stOneReserved.nextUuid = false ∧
    reserve cfgGrow fokF idShuffle 7 stOneReserved =
      (ReserveOutcome.cbErr PoolError.connectionError, stOneReserved) := by
  refine ⟨fun l => List.Perm.refl l, rfl, by decide, by decide, rfl, ?_⟩
  exact c5_growth_failure_leaves_state_unchanged cfgGrow fokF idShuffle 7
    stOneReserved (fun l => List.Perm.refl l) rfl (by decide) (by decide) rfl

/-- C10: when the `k`-th creation of the top-up loop fails (after `k`
successful ones, with more than `k` iterations due), `reserve` ends with the
thrown factory error — the callback is never invoked (`ReserveOutcome.thrown`)
— and the `k` records created by the earlier iterations remain at the front
of `_pool`, with `_reserved` untouched. -/
theorem c10_topup_failure_throws (cfg : PoolConfig) (fok : Nat → Bool)
    (σ : List ConnObj → List ConnObj) (now : Int) (st : PoolState) (k : Nat)
    (hk : k < reserveTimes cfg (shuffledState σ (closeIdleStep cfg now st)))
    (hok : ∀ i, i < k → fok (st.nextUuid + i) = true)
    (hfail : fok (st.nextUuid + k) = false) :
    reserve cfg fok σ now st =
      (ReserveOutcome.thrown PoolError.connectionError,
       { pool := newConns cfg now st.nextUuid k ++
           σ (closeIdleStep cfg now st).pool
         reserved := st.reserved
         nextUuid := st.nextUuid + k }) := by
  have hnx : (shuffledState σ (closeIdleStep cfg now st)).nextUuid = st.nextUuid := by
    unfold shuffledState
    exact closeIdleStep_nextUuid cfg now st
  have hres : (shuffledState σ (closeIdleStep cfg now st)).reserved = st.reserved := by
    unfold shuffledState
    exact closeIdleStep_reserved cfg now st
  have hok' : ∀ i, i < k →
      fok ((shuffledState σ (closeIdleStep cfg now st)).nextUuid + i) = true := by
    intro i hi
    rw [hnx]
    exact hok i hi
  have hfail' :
      fok ((shuffledState σ (closeIdleStep cfg now st)).nextUuid + k) = false := by
    rw [hnx]
    exact hfail
  unfold reserve
  rw [topUp_fail cfg fok now _ k _ hk hok' hfail', reserveDispatch_some]
  rw [hnx, hres]
  rfl

/-- C10 witness: min 3 from an empty pool; the first creation succeeds, the
second fails, and the single created record stays in `_pool`. -/
theorem c10_topup_failure_witness :
    (1 : Nat) < reserveTimes cfgTri (shuffledState idShuffle
      (closeIdleStep cfgTri 0 stEmpty0)) ∧
    (∀ i, i < 1 → fok01 (stEmpty0.nextUuid + i) = true) ∧
    fok01 (stEmpty0.nextUuid + 1) = false ∧
    reserve cfgTri fok01 idShuffle 0 stEmpty0 =
      (ReserveOutcome.thrown PoolError.connectionError,
       { pool := newConns cfgTri 0 stEmpty0.nextUuid 1 ++
           idShuffle (closeIdleStep cfgTri 0 stEmpty0).pool
         reserved := stEmpty0.reserved
         nextUuid := stEmpty0.nextUuid + 1 }) := by
  refine ⟨by decide, by decide, by decide, ?_⟩
  exact c10_topup_failure_throws cfgTri fok01 idShuffle 0 stEmpty0 1
    (by decide) (by decide) (by decide)

/-- C4: whenever the post-eviction population is below `_minpoolsize` and the
factory succeeds, the top-up loop creates exactly `minpoolsize - population`
records, prepends them to the (shuffled) `_pool` — bringing the population
exactly to `_minpoolsize` — and only then is one connection handed out: the
front of the topped-up pool, moved to the front of `_reserved`. -/
theorem c4_topup_restores_minimum (cfg : PoolConfig) (fok : Nat → Bool)
    (σ : List ConnObj → List ConnObj) (now : Int) (st : PoolState)
    (hσ : IsShuffle σ) (hfok : ∀ u, fok u = true)
    (hlt : (closeIdleStep cfg now st).pool.length +
        (closeIdleStep cfg now st).reserved.length < cfg.minpoolsize) :
    (newConns cfg now st.nextUuid
          (cfg.minpoolsize -
            ((closeIdleStep cfg now st).pool.length +
              (closeIdleStep cfg now st).reserved.length)) ++
        σ (closeIdleStep cfg now st).pool).length +
      (closeIdleStep cfg now st).reserved.length = cfg.minpoolsize ∧
    ∃ c rest,
      newConns cfg now st.nextUuid
          (cfg.minpoolsize -
            ((closeIdleStep cfg now st).pool.length +
              (closeIdleStep cfg now st).reserved.length)) ++
        σ (closeIdleStep cfg now st).pool = c :: rest ∧
      reserve cfg fok σ now st =
        (ReserveOutcome.cbOk c,
         { pool := rest
           reserved := c :: st.reserved
           nextUuid := st.nextUuid +
             (cfg.minpoolsize -
               ((closeIdleStep cfg now st).pool.length +
                 (closeIdleStep cfg now st).reserved.length)) }) := by
  have hnx : (shuffledState σ (closeIdleStep cfg now st)).nextUuid = st.nextUuid := by
    unfold shuffledState
    exact closeIdleStep_nextUuid cfg now st
  have hres : (shuffledState σ (closeIdleStep cfg now st)).reserved = st.reserved := by
    unfold shuffledState
    exact closeIdleStep_reserved cfg now st
  have hσlen : (σ (closeIdleStep cfg now st).pool).length =
      (closeIdleStep cfg now st).pool.length :=
    (hσ (closeIdleStep cfg now st).pool).length_eq
  have htimes : reserveTimes cfg (shuffledState σ (closeIdleStep cfg now st)) =
      cfg.minpoolsize -
        ((closeIdleStep cfg now st).pool.length +
          (closeIdleStep cfg now st).reserved.length) := by
    unfold reserveTimes shuffledState
    simp only []
    omega
  have hlensum :
      (newConns cfg now st.nextUuid
            (cfg.minpoolsize -
              ((closeIdleStep cfg now st).pool.length +
                (closeIdleStep cfg now st).reserved.length)) ++
          σ (closeIdleStep cfg now st).pool).length +
        (closeIdleStep cfg now st).reserved.length = cfg.minpoolsize := by
    rw [List.length_append, newConns_length, hσlen]
    omega
  refine ⟨hlensum, ?_⟩
  have hok : ∀ i, i < reserveTimes cfg (shuffledState σ (closeIdleStep cfg now st)) →
      fok ((shuffledState σ (closeIdleStep cfg now st)).nextUuid + i) = true :=
    fun i _ => hfok _
  have hne : newConns cfg now st.nextUuid
        (cfg.minpoolsize -
          ((closeIdleStep cfg now st).pool.length +
            (closeIdleStep cfg now st).reserved.length)) ++
      σ (closeIdleStep cfg now st).pool ≠ [] := by
    intro hcontra
    have hlen0 := congrArg List.length hcontra
    rw [List.length_append, newConns_length, hσlen] at hlen0
    simp only [List.length_nil] at hlen0
    omega
  rcases hcons : newConns cfg now st.nextUuid
        (cfg.minpoolsize -
          ((closeIdleStep cfg now st).pool.length +
            (closeIdleStep cfg now st).reserved.length)) ++
      σ (closeIdleStep cfg now st).pool with _ | ⟨c, rest⟩
  · exact absurd hcons hne
  refine ⟨c, rest, rfl, ?_⟩
  unfold reserve
  rw [topUp_ok cfg fok now _ _ hok, reserveDispatch_none]
  rw [hnx, htimes]
  rw [reserveServe_cons cfg fok now _ c rest (by
    show newConns cfg now st.nextUuid _ ++
        (shuffledState σ (closeIdleStep cfg now st)).pool = c :: rest
    unfold shuffledState
    simp only []
    exact hcons)]
  rw [hres]

/-- C4 witness: min 2 from an empty pool at uuid counter 5 — two records are
created and the most recently created one is handed out. -/
theorem c4_topup_witness :
    IsShuffle idShuffle ∧ (∀ u, fokT u = true) ∧
    ((closeIdleStep cfgTop 0 stEmpty5).pool.length +
        (closeIdleStep cfgTop 0 stEmpty5).reserved.length < cfgTop.minpoolsize) ∧
    ((newConns cfgTop 0 stEmpty5.nextUuid
            (cfgTop.minpoolsize -
              ((closeIdleStep cfgTop 0 stEmpty5).pool.length +
                (closeIdleStep cfgTop 0 stEmpty5).reserved.length)) ++
          idShuffle (closeIdleStep cfgTop 0 stEmpty5).pool).length +
        (closeIdleStep cfgTop 0 stEmpty5).reserved.length = cfgTop.minpoolsize ∧
      ∃ c rest,
        newConns cfgTop 0 stEmpty5.nextUuid
            (cfgTop.minpoolsize -
              ((closeIdleStep cfgTop 0 stEmpty5).pool.length +
                (closeIdleStep cfgTop 0 stEmpty5).reserved.length)) ++
          idShuffle (closeIdleStep cfgTop 0 stEmpty5).pool = c :: rest ∧
        reserve cfgTop fokT idShuffle 0 stEmpty5 =
          (ReserveOutcome.cbOk c,
           { pool := rest
             reserved := c :: stEmpty5.reserved
             nextUuid := stEmpty5.nextUuid +
               (cfgTop.minpoolsize -
                 ((closeIdleStep cfgTop 0 stEmpty5).pool.length +
                   (closeIdleStep cfgTop 0 stEmpty5).reserved.length)) })) := by
  refine ⟨fun l => List.Perm.refl l, fun u => rfl, by decide, ?_⟩
  exact c4_topup_restores_minimum cfgTop fokT idShuffle 0 stEmpty5
    (fun l => List.Perm.refl l) (fun u => rfl) (by decide)

/-- C2: with `minpoolsize = 2, maxpoolsize = 3` and a working factory,
whatever the shuffles do, three sequential `reserve()` calls after
initialization all succeed — the third one by creating a brand-new
connection (uuid 2, the next fresh identity) directly into `_reserved`,
leaving `_pool` untouched — and a fourth `reserve()` with no intervening
release fails with the "No more pool connections available" error, leaving
the state exactly as it was. -/
theorem c2_capacity_scenario (σ1 σ2 σ3 σ4 : List ConnObj → List ConnObj)
    (h1 : IsShuffle σ1) (h2 : IsShuffle σ2) (h3 : IsShuffle σ3)
    (h4 : IsShuffle σ4) (fok : Nat → Bool) (hfok : ∀ u, fok u = true)
    (now : Int) :
    ∃ c1 c2 s1 s2,
      reserve cfgB fok σ1 now (initState cfgB now) =
          (ReserveOutcome.cbOk c1, s1) ∧
      reserve cfgB fok σ2 now s1 = (ReserveOutcome.cbOk c2, s2) ∧
      s2.pool = [] ∧ s2.reserved.length = 2 ∧ s2.nextUuid = 2 ∧
      ∃ s3,
        reserve cfgB fok σ3 now s2 =
            (ReserveOutcome.cbOk (addConnectionSync cfgB now 2), s3) ∧
        s3.pool = s2.pool ∧
        s3.reserved = addConnectionSync cfgB now 2 :: s2.reserved ∧
        reserve cfgB fok σ4 now s3 =
          (ReserveOutcome.cbErr PoolError.exhausted, s3) := by
  have hcl : ∀ st : PoolState, closeIdleStep cfgB now st = st :=
    fun st => closeIdleStep_none cfgB now st rfl
  -- the initial pool has two records
  have hlen1 : (σ1 (initState cfgB now).pool).length = 2 := by
    rw [(h1 (initState cfgB now).pool).length_eq]
    simp [initState, cfgB]
  obtain ⟨c1, l1, hl1⟩ : ∃ c l, σ1 (initState cfgB now).pool = c :: l := by
    cases hσp : σ1 (initState cfgB now).pool with
    | nil => rw [hσp] at hlen1; simp at hlen1
    | cons a l => exact ⟨a, l, rfl⟩
  obtain ⟨b1, hb1⟩ : ∃ b, l1 = [b] := by
    rw [hl1] at hlen1
    cases l1 with
    | nil => simp at hlen1
    | cons x xs =>
      cases xs with
      | nil => exact ⟨x, rfl⟩
      | cons y ys => simp at hlen1
  subst hb1
  -- first reserve
  have hsh1 : shuffledState σ1 (closeIdleStep cfgB now (initState cfgB now)) =
      { pool := [c1, b1], reserved := [], nextUuid := 2 } := by
    rw [hcl]
    unfold shuffledState
    rw [hl1]
    rfl
  have hr1 : reserve cfgB fok σ1 now (initState cfgB now) =
      (ReserveOutcome.cbOk c1,
       { pool := [b1], reserved := [c1], nextUuid := 2 }) := by
    rw [reserve_eq_serve_of_no_topup cfgB fok σ1 now (initState cfgB now) h1
          (by rw [hcl]; simp [initState, cfgB])]
    rw [hsh1, reserveServe_cons cfgB fok now _ c1 [b1] rfl]
  -- second reserve
  have hσ2 : σ2 [b1] = [b1] := List.perm_singleton.mp (h2 [b1])
  have hsh2 : shuffledState σ2 (closeIdleStep cfgB now
        { pool := [b1], reserved := [c1], nextUuid := 2 }) =
      { pool := [b1], reserved := [c1], nextUuid := 2 } := by
    rw [hcl]
    unfold shuffledState
    rw [hσ2]
  have hr2 : reserve cfgB fok σ2 now
        { pool := [b1], reserved := [c1], nextUuid := 2 } =
      (ReserveOutcome.cbOk b1,
       { pool := [], reserved := [b1, c1], nextUuid := 2 }) := by
    rw [reserve_eq_serve_of_no_topup cfgB fok σ2 now _ h2
          (by rw [hcl]; simp [cfgB])]
    rw [hsh2, reserveServe_cons cfgB fok now _ b1 [] rfl]
  -- third reserve: pool empty, grows into reserved
  have hσ3 : σ3 ([] : List ConnObj) = [] := List.perm_nil.mp (h3 [])
  have hsh3 : shuffledState σ3 (closeIdleStep cfgB now
        { pool := [], reserved := [b1, c1], nextUuid := 2 }) =
      { pool := [], reserved := [b1, c1], nextUuid := 2 } := by
    rw [hcl]
    unfold shuffledState
    rw [hσ3]
  have hr3 : reserve cfgB fok σ3 now
        { pool := [], reserved := [b1, c1], nextUuid := 2 } =
      (ReserveOutcome.cbOk (addConnectionSync cfgB now 2),
       { pool := [],
         reserved := addConnectionSync cfgB now 2 :: [b1, c1],
         nextUuid := 3 }) := by
    rw [reserve_eq_serve_of_no_topup cfgB fok σ3 now _ h3
          (by rw [hcl]; simp [cfgB])]
    rw [hsh3, reserveServe_grow cfgB fok now _ rfl (by simp [cfgB]) (hfok 2)]
  -- fourth reserve: exhausted, state unchanged
  have hσ4 : σ4 ([] : List ConnObj) = [] := List.perm_nil.mp (h4 [])
  have hsh4 : shuffledState σ4 (closeIdleStep cfgB now
        { pool := [],
          reserved := addConnectionSync cfgB now 2 :: [b1, c1],
          nextUuid := 3 }) =
      { pool := [],
        reserved := addConnectionSync cfgB now 2 :: [b1, c1],
        nextUuid := 3 } := by
    rw [hcl]
    unfold shuffledState
    rw [hσ4]
  have hr4 : reserve cfgB fok σ4 now
        { pool := [],
          reserved := addConnectionSync cfgB now 2 :: [b1, c1],
          nextUuid := 3 } =
      (ReserveOutcome.cbErr PoolError.exhausted,
       { pool := [],
         reserved := addConnectionSync cfgB now 2 :: [b1, c1],
         nextUuid := 3 }) := by
    rw [reserve_eq_serve_of_no_topup cfgB fok σ4 now _ h4
          (by rw [hcl]; simp [cfgB])]
    rw [hsh4, reserveServe_exhausted cfgB fok now _ rfl (by simp [cfgB])]
  exact ⟨c1, b1, { pool := [b1], reserved := [c1], nextUuid := 2 },
    { pool := [], reserved := [b1, c1], nextUuid := 2 },
    hr1, hr2, rfl, rfl, rfl,
    { pool := [],
      reserved := addConnectionSync cfgB now 2 :: [b1, c1],
      nextUuid := 3 },
    hr3, rfl, rfl, hr4⟩

/-- C2 witness: the scenario run with the identity shuffle and an
always-succeeding factory at time 0. -/
theorem c2_capacity_scenario_witness :
    IsShuffle idShuffle ∧ (∀ u, fokT u = true) ∧
    (∃ c1 c2 s1 s2,
      reserve cfgB fokT idShuffle 0 (initState cfgB 0) =
          (ReserveOutcome.cbOk c1, s1) ∧
      reserve cfgB fokT idShuffle 0 s1 = (ReserveOutcome.cbOk c2, s2) ∧
      s2.pool = [] ∧ s2.reserved.length = 2 ∧ s2.nextUuid = 2 ∧
      ∃ s3,
        reserve cfgB fokT idShuffle 0 s2 =
            (ReserveOutcome.cbOk (addConnectionSync cfgB 0 2), s3) ∧
        s3.pool = s2.pool ∧
        s3.reserved = addConnectionSync cfgB 0 2 :: s2.reserved ∧
        reserve cfgB fokT idShuffle 0 s3 =
          (ReserveOutcome.cbErr PoolError.exhausted, s3)) := by
  refine ⟨fun l => List.Perm.refl l, fun u => rfl, ?_⟩
  exact c2_capacity_scenario idShuffle idShuffle idShuffle idShuffle
    (fun l => List.Perm.refl l) (fun l => List.Perm.refl l)
    (fun l => List.Perm.refl l) (fun l => List.Perm.refl l)
    fokT (fun u => rfl) 0

/-- C1 (amended): starting from an initialized pool, for every sequence of
reserve and release operations in which each release argument is a record
currently in `_reserved` at the moment of the call (and each reserve uses a
genuine shuffle), no connection identity is ever present in both `_pool` and
`_reserved`, and no identity is duplicated inside either collection.  (The
unrestricted claim fails: a double release duplicates an identity inside
`_pool`, see the counterexample.) -/
theorem c1_identity_invariant_good_sequences (cfg : PoolConfig) (now0 : Int)
    (ops : List Op) (hg : GoodRun cfg ops (initState cfg now0)) :
    Wf (runOps cfg ops (initState cfg now0)) :=
  (wf_fresh_runOps cfg ops (initState cfg now0) hg
    (wf_fresh_initState cfg now0).1 (wf_fresh_initState cfg now0).2).1

/-- C1 witness: a reserve followed by a legitimate release of the reserved
record, on the 1/1 pool. -/
theorem c1_identity_invariant_witness :
    GoodRun cfgA opsCycle (initState cfgA 0) ∧
    Wf (runOps cfgA opsCycle (initState cfgA 0)) := by
  have hmem : connA ∈
      (stepOp cfgA (Op.opReserve fokT idShuffle 0) (initState cfgA 0)).reserved := by
    decide
  have hg : GoodRun cfgA opsCycle (initState cfgA 0) :=
    ⟨fun l => List.Perm.refl l, hmem, trivial⟩
  exact ⟨hg, c1_identity_invariant_good_sequences cfgA 0 opsCycle hg⟩

/-- C1 counterexample: reserve once, then release the same record twice.
After the double release `_pool` holds the identity twice — the claimed
no-duplication invariant fails for this sequence of reserve/release calls. -/
theorem c1_counterexample_double_release :
    (runOps cfgA opsDouble (initState cfgA 0)).pool = [connA, connA] ∧
    ¬ (uuids (runOps cfgA opsDouble (initState cfgA 0)).pool).Nodup := by
  constructor
  · decide
  · decide

/-- C8 (amended): `lastIdle` is written when the record is created (whenever
`maxidle` is configured, with the creation-time clock); `release` puts the
argument record back at the front of `_pool` unchanged — the refresh on
release is commented out in the source — so after a reserve/release cycle
the record still carries its creation-time `lastIdle`, not the release
time. -/
theorem c8_amended_lastIdle_creation_only (cfg : PoolConfig) (cnow rnow : Int)
    (u : Nat) (hmi : cfg.maxidle.isSome = true) (c : ConnObj) (st : PoolState) :
    (addConnectionSync cfg cnow u).lastIdle = some cnow ∧
    (release (ReleaseArg.obj c) rnow st).2.pool.head? = some c := by
  constructor
  · simp [addConnectionSync, hmi]
  · rw [release_obj_eq]
    rfl

/-- C8 witness: the `maxidle = 1000` configuration, creation at time 0,
release at time 500. -/
theorem c8_amended_lastIdle_witness :
    cfgIdle.maxidle.isSome = true ∧
    ((addConnectionSync cfgIdle 0 0).lastIdle = some 0 ∧
     (release (ReleaseArg.obj connIdle) 500 stOneReserved).2.pool.head? =
       some connIdle) := by
  refine ⟨by decide, ?_⟩
  exact c8_amended_lastIdle_creation_only cfgIdle 0 500 0 (by decide)
    connIdle stOneReserved

/-- C8 counterexample: with `maxidle = 1000`, initialize at time 0, reserve
at time 0, then release at time 500: the record returned to `_pool` still
carries `lastIdle = some 0` — its creation time — although the most recent
release happened at time 500. -/
theorem c8_counterexample_stale_lastIdle :
    ((release (ReleaseArg.obj connIdle) 500
        (stepOp cfgIdle (Op.opReserve fokT idShuffle 0)
          (initState cfgIdle 0))).2.pool.map (fun c => c.lastIdle)) =
      [some 0] ∧
    (some (500 : Int) ≠ some (0 : Int)) := by
  constructor
  · decide
  · decide
